import Mathlib

/-!
# RustiqueDB: shallow embedding of the storage engine and query pipeline

This file embeds the data model and the operations of the RustiqueDB
engine (`src/database/mod.rs`): the schema/row model, the constraint
checks performed by `insert` and `update`, the WHERE-condition compiler
(`parse_condition`, `find_outer_operator`, `parse_single_condition`) and
the `select`/`update`/`delete`/`create_table` executors.  Rust strings
are modelled as Lean `String`s (lists of characters); Rust byte indices
coincide with character indices on the ASCII inputs handled by the
theorems below.  Machine integers (`i32`) are modelled as `Int` with the
explicit range check of `i32::from_str`.
-/

namespace RustiqueDB

/-! ## Rust string primitives -/

/-- Rust `char::is_whitespace` (the Unicode `White_Space` property). -/
def rustIsWhitespace (c : Char) : Bool :=
  c = ' ' || c = '\t' || c = '\n' || c = '\r' ||
  c.toNat = 0x0B || c.toNat = 0x0C || c.toNat = 0x85 || c.toNat = 0xA0 ||
  c.toNat = 0x1680 || (0x2000 ≤ c.toNat && c.toNat ≤ 0x200A) ||
  c.toNat = 0x2028 || c.toNat = 0x2029 || c.toNat = 0x202F ||
  c.toNat = 0x205F || c.toNat = 0x3000

/-- Rust `u8::is_ascii_whitespace`. -/
def isAsciiWs (c : Char) : Bool :=
  c = ' ' || c = '\t' || c = '\n' || c.toNat = 0x0C || c = '\r'

/-- Strip leading and trailing characters satisfying `p` (Rust `str::trim_matches`). -/
def trimMatchesList (p : Char → Bool) (cs : List Char) : List Char :=
  ((cs.dropWhile p).reverse.dropWhile p).reverse

def trimMatches (p : Char → Bool) (s : String) : String :=
  String.mk (trimMatchesList p s.data)

/-- Rust `str::trim`. -/
def rustTrim (s : String) : String :=
  trimMatches rustIsWhitespace s

/-- ASCII lowercasing of one character. -/
def asciiLower (c : Char) : Char :=
  if 'A' ≤ c && c ≤ 'Z' then Char.ofNat (c.toNat + 32) else c

/-- Rust `str::eq_ignore_ascii_case`. -/
def eqIgnoreAsciiCase (a b : String) : Bool :=
  a.data.map asciiLower = b.data.map asciiLower

/-- Lowercase a string character-wise (`str::to_lowercase` on ASCII input). -/
def lowerStr (cs : List Char) : List Char :=
  cs.map asciiLower

/-- Strip surrounding double quotes (`.trim_matches('"')`). -/
def trimDQ (s : String) : String :=
  trimMatches (fun c => c = '"') s

/-- Strip surrounding double or single quotes
(`.trim_matches(|c| c == '"' \|\| c == '\'')`). -/
def trimQuotes (s : String) : String :=
  trimMatches (fun c => c = '"' || c = '\'') s

def digitsToNat (ds : List Char) : Nat :=
  ds.foldl (fun acc c => acc * 10 + (c.toNat - '0'.toNat)) 0

/-- Rust `str::parse::<i32>()`: optional sign, at least one digit, all
digits, value within the `i32` range; overflow is a parse error. -/
def parseI32 (s : String) : Option Int :=
  let cs := s.data
  let signAndDigits : Int × List Char :=
    match cs with
    | '+' :: rest => (1, rest)
    | '-' :: rest => (-1, rest)
    | _ => (1, cs)
  let sign := signAndDigits.1
  let ds := signAndDigits.2
  if ds = [] then none
  else if ds.all Char.isDigit then
    let n : Int := sign * (digitsToNat ds : Int)
    if -(2 ^ 31) ≤ n ∧ n ≤ 2 ^ 31 - 1 then some n else none
  else none

/-- Numeric cell reading `.parse::<i32>().unwrap_or(0)`. -/
def i32OrZero (s : String) : Int :=
  (parseI32 s).getD 0

/-- Rust `s.starts_with(c)` for a single character. -/
def startsWithChar (s : String) (c : Char) : Bool :=
  match s.data with
  | [] => false
  | d :: _ => d = c

/-- Rust `s.ends_with(c)` for a single character. -/
def endsWithChar (s : String) (c : Char) : Bool :=
  match s.data.reverse with
  | [] => false
  | d :: _ => d = c

/-- String comparison (`Ord for String`); UTF-8 byte order coincides with
code-point order. -/
def strCompare (a b : String) : Ordering :=
  if a < b then .lt else if a = b then .eq else .gt

def intCompare (a b : Int) : Ordering :=
  if a < b then .lt else if a = b then .eq else .gt

/-! ## Data model (`Database`, `Table`, `Column`, `DataType`) -/

inductive DataType where
  | Int : Nat → DataType
  | Varchar : Nat → DataType
deriving DecidableEq, Repr

structure Column where
  name : String
  data_type : DataType
  is_primary : Bool
  not_null : Bool
deriving DecidableEq, Repr

structure Table where
  name : String
  columns : List Column
  data : List (List String)
deriving DecidableEq, Repr

structure Database where
  tables : List Table
deriving DecidableEq, Repr

/-- NULL test used by the constraint checks in `insert`
(`value.trim().is_empty() \|\| value.trim().eq_ignore_ascii_case("null")`). -/
def isNullCell (s : String) : Bool :=
  rustTrim s = "" || eqIgnoreAsciiCase (rustTrim s) "null"

/-! ## Compiled predicates

The Rust code compiles a condition string into a boxed closure.  The
closure's behaviour depends only on the resolved column index and the
(quote-stripped) literal, so it is modelled as a first-order syntax tree
`Pred` together with the evaluator `evalPred`, which reproduces the body
of each closure in `parse_single_condition` / `parse_condition`. -/

inductive Pred where
  | gtP : Nat → String → Pred
  | ltP : Nat → String → Pred
  | eqP : Nat → String → Pred
  | isNullP : Nat → Pred
  | isNotNullP : Nat → Pred
  | andP : Pred → Pred → Pred
  | orP : Pred → Pred → Pred
deriving DecidableEq, Repr

def cellAt (row : List String) (i : Nat) : String :=
  row.getD i ""

def evalPred : Pred → List String → Bool
  | .gtP i v, row => i32OrZero (trimDQ (cellAt row i)) > i32OrZero v
  | .ltP i v, row => i32OrZero (trimDQ (cellAt row i)) < i32OrZero v
  | .eqP i v, row => trimDQ (cellAt row i) = v
  | .isNullP i, row => trimDQ (cellAt row i) = ""
  | .isNotNullP i, row => ¬ (trimDQ (cellAt row i) = "")
  | .andP p q, row => evalPred p row && evalPred q row
  | .orP p q, row => evalPred p row || evalPred q row

/-! ## Tokenizer of `parse_single_condition`

Models the regex `(?:("[^"]*")|('[^']*')|(\S+))` with `find_iter`:
successive matches start at non-whitespace characters; at an opening
quote with a later matching quote the quoted span (quotes included) is
one token, otherwise a maximal run of non-whitespace characters is. -/

/-- One scan of the token stream; the fuel only stands for the
recursion (each step consumes at least one character, so the wrapper's
`length + 1` never runs out). -/
def tokenizeF : Nat → List Char → List String
  | 0, _ => []
  | _ + 1, [] => []
  | fuel + 1, c :: rest =>
    if rustIsWhitespace c then tokenizeF fuel rest
    else if (c = '"' || c = '\'') && rest.contains c then
      let body := rest.takeWhile (fun x => x ≠ c)
      let after := (rest.dropWhile (fun x => x ≠ c)).tail
      String.mk (c :: (body ++ [c])) :: tokenizeF fuel after
    else
      String.mk ((c :: rest).takeWhile (fun x => ¬ rustIsWhitespace x)) ::
        tokenizeF fuel (rest.dropWhile (fun x => ¬ rustIsWhitespace x))

def tokenize (s : String) : List String :=
  tokenizeF (s.data.length + 1) s.data

/-! ## `find_outer_operator` -/

/-- Leftmost index at which `sub` occurs in `s` (Rust `str::find`). -/
def findIdxOfSub (s sub : List Char) : Option Nat :=
  match s with
  | [] => if sub = [] then some 0 else none
  | _ :: rest =>
    if sub.isPrefixOf s then some 0
    else match findIdxOfSub rest sub with
      | some i => some (i + 1)
      | none => none

/-- The search loop of `find_outer_operator`.  `depth` accumulates the
paren counts of the whole prefix at each candidate (as the Rust code
does, without resetting), `inQuotes` is recomputed from the prefix.  The
fuel is bounded by the string length; since `start` strictly increases
by at least `op.length ≥ 1` per iteration and a hit needs
`start ≤ s.length`, fuel `s.length + 1` never runs out for the
nonempty operators `"AND"`/`"OR"` this is called with. -/
def findOuterLoop (s slower op oplower : List Char) :
    Nat → Nat → Int → Option Nat
  | 0, _, _ => none
  | fuel + 1, start, depth =>
    match findIdxOfSub (slower.drop start) oplower with
    | none => none
    | some pos =>
      let absolutePos := start + pos
      let substr := s.take absolutePos
      let depth2 := depth + (substr.count '(' : Int) - (substr.count ')' : Int)
      let inQuotes := (substr.count '"') % 2 ≠ 0 || (substr.count '\'') % 2 ≠ 0
      let isComplete :=
        (absolutePos = 0 || isAsciiWs (s.getD (absolutePos - 1) ' ')) &&
        (s.length ≤ absolutePos + op.length || isAsciiWs (s.getD (absolutePos + op.length) ' '))
      if depth2 = 0 && !inQuotes && isComplete then some absolutePos
      else findOuterLoop s slower op oplower fuel (absolutePos + op.length) depth2

def find_outer_operator (s op : String) : Option Nat :=
  findOuterLoop s.data (lowerStr s.data) op.data (lowerStr op.data) (s.data.length + 1) 0 0

/-! ## `parse_single_condition` -/

def parse_single_condition (cond : String) (table : Table) : Except String Pred :=
  let parts := tokenize cond
  if ¬ (parts.length = 3 ∨ (parts.length = 4 ∧ parts.getD 1 "" = "IS" ∧
      (parts.getD 3 "" = "NULL" ∨ parts.getD 3 "" = "NOT NULL"))) then
    .error ("Invalid WHERE format. Expected 'column op value', got: " ++ String.intercalate " " parts)
  else
    let col := parts.getD 0 ""
    let op := parts.getD 1 ""
    let rawVal := if parts.length = 4 then String.intercalate " " (parts.drop 2)
      else parts.getD 2 ""
    let val := trimQuotes rawVal
    match table.columns.findIdx? (fun c => c.name = col) with
    | none => .error ("Column '" ++ col ++ "' not found in table")
    | some colIdx =>
      if op = ">" then .ok (.gtP colIdx val)
      else if op = "<" then .ok (.ltP colIdx val)
      else if op = "=" then .ok (.eqP colIdx val)
      else if op = "IS" ∧ val = "NULL" then .ok (.isNullP colIdx)
      else if op = "IS" ∧ val = "NOT NULL" then .ok (.isNotNullP colIdx)
      else .error ("Unsupported operator: " ++ op)

/-! ## `parse_condition` -/

/-- The non-breaking space the quote-aware pre-pass substitutes for
spaces inside quoted literals. -/
def nbsp : Char := Char.ofNat 160

/-- Pass 1 of `parse_condition`: replace each space inside quotes by
`nbsp`, toggling `inQ` at every single or double quote. -/
def replaceQuotedSpaces : List Char → Bool → List Char
  | [], _ => []
  | c :: rest, inQ =>
    if c = '"' || c = '\'' then c :: replaceQuotedSpaces rest (!inQ)
    else if c = ' ' && inQ then nbsp :: replaceQuotedSpaces rest inQ
    else c :: replaceQuotedSpaces rest inQ

/-- The substitution `.replace('\u{00A0}', " ")`. -/
def restoreSpaces (cs : List Char) : List Char :=
  cs.map (fun c => if c = nbsp then ' ' else c)

def restoreStr (s : String) : String :=
  String.mk (restoreSpaces s.data)

/-- The matching-parenthesis scan of step 2 of `parse_condition`:
starting after the opening `(` with depth 1, advance while the depth is
positive, returning the final position and depth. -/
def parenScan : List Char → Int → Nat → Nat × Int
  | [], d, pos => (pos, d)
  | c :: rest, d, pos =>
    if d ≤ 0 then (pos, d)
    else parenScan rest (if c = '(' then d + 1 else if c = ')' then d - 1 else d) (pos + 1)

/-- Rust `Database::parse_condition`, with explicit fuel standing for the
recursion.  Every recursive call of the Rust function is on a strictly
shorter string (each split removes at least an operator or a pair of
parentheses), so fuel `cond.length + 1` never runs out; the wrapper
`parse_condition` below supplies it.  Rust byte indices are modelled as
character indices, which agree on the ASCII strings the theorems use. -/
def parseCondFuel (table : Table) : Nat → String → Except String Pred
  | 0, _ => .error "recursion limit"
  | fuel + 1, cond0 =>
    let cond := rustTrim cond0
    if cond = "" then .error "Empty condition"
    else
      let modified := replaceQuotedSpaces cond.data false
      let scan := parenScan (modified.drop 1) 1 1
      if modified.headD ' ' = '(' && scan.2 = 0 then
        let endPos := scan.1
        let inside := String.mk (restoreSpaces ((modified.drop 1).take (endPos - 2)))
        let remaining := rustTrim (String.mk (restoreSpaces (modified.drop endPos)))
        if remaining = "" then parseCondFuel table fuel inside
        else if remaining.startsWith "AND" then
          let right := rustTrim (String.mk (remaining.data.drop 3))
          match parseCondFuel table fuel inside with
          | .error e => .error e
          | .ok a =>
            match parseCondFuel table fuel right with
            | .error e => .error e
            | .ok b => .ok (.andP a b)
        else if remaining.startsWith "OR" then
          let right := rustTrim (String.mk (remaining.data.drop 2))
          match parseCondFuel table fuel inside with
          | .error e => .error e
          | .ok a =>
            match parseCondFuel table fuel right with
            | .error e => .error e
            | .ok b => .ok (.orP a b)
        else
          match parseCondFuel table fuel inside with
          | .error e => .error e
          | .ok a =>
            match parseCondFuel table fuel remaining with
            | .error e => .error e
            | .ok b => .ok (.andP a b)
      else
        match find_outer_operator (String.mk modified) "AND" with
        | some pos =>
          let left0 := rustTrim (String.mk (modified.take pos))
          let right := restoreStr (rustTrim (String.mk (modified.drop (pos + 3))))
          if left0 = "" then parseCondFuel table fuel right
          else
            match parseCondFuel table fuel (restoreStr left0) with
            | .error e => .error e
            | .ok a =>
              match parseCondFuel table fuel right with
              | .error e => .error e
              | .ok b => .ok (.andP a b)
        | none =>
          match find_outer_operator (String.mk modified) "OR" with
          | some pos =>
            let left0 := rustTrim (String.mk (modified.take pos))
            let right := restoreStr (rustTrim (String.mk (modified.drop (pos + 2))))
            if left0 = "" then parseCondFuel table fuel right
            else
              match parseCondFuel table fuel (restoreStr left0) with
              | .error e => .error e
              | .ok a =>
                match parseCondFuel table fuel right with
                | .error e => .error e
                | .ok b => .ok (.orP a b)
          | none => parse_single_condition (String.mk (restoreSpaces modified)) table

def parse_condition (cond : String) (table : Table) : Except String Pred :=
  parseCondFuel table (cond.length + 1) cond

/-- The row filter `update`/`delete` build from an optional condition:
each row re-parses the condition against a column-only copy of the
table; a parse failure makes the row not match.  (Parsing is
deterministic, so re-parsing per row equals parsing once.) -/
def condFilter (condition : Option String) (columns : List Column) (row : List String) : Bool :=
  match condition with
  | none => true
  | some cond =>
    match parse_condition cond ⟨"", columns, []⟩ with
    | .ok p => evalPred p row
    | .error _ => false

/-! ## `Database::create_table` -/

def create_table (db : Database) (name : String)
    (columns : List (String × DataType × Bool × Bool)) : Except String Database :=
  let normalized := String.mk (lowerStr (rustTrim name).data)
  if db.tables.any (fun t => String.mk (lowerStr t.name.data) = normalized) then
    .error ("[REJECTED] Table '" ++ normalized ++ "' exists")
  else
    .ok ⟨db.tables ++
      [Table.mk name (columns.map (fun c => Column.mk c.1 c.2.1 c.2.2.1 c.2.2.2)) []]⟩

/-! ## `Database::insert` -/

/-- The partial-insert loop: place each supplied value at its column's
position in a row pre-filled with `""`; an unknown column name fails. -/
def assignColumns (tcols : List Column) :
    List (String × String) → List String → Except String (List String)
  | [], full => .ok full
  | (colName, v) :: restPairs, full =>
    match tcols.findIdx? (fun c => c.name = colName) with
    | none => .error ("Column '" ++ colName ++ "' not found")
    | some idx => assignColumns tcols restPairs (full.set idx v)

/-- Build the full positional row for one `insert` row (`full_row_values`). -/
def buildFullRow (t : Table) (columns : Option (List String))
    (rowValues : List String) : Except String (List String) :=
  match columns with
  | some colNames =>
    if colNames.length ≠ rowValues.length then
      .error "Column count mismatch in INSERT statement"
    else
      assignColumns t.columns (colNames.zip rowValues)
        (List.replicate t.columns.length "")
  | none =>
    if rowValues.length ≠ t.columns.length then .error "Column count mismatch"
    else .ok rowValues

/-- The NOT NULL / primary-NULL loop of `insert` (both violations produce
the same message, as in the source). -/
def checkNullConstraints : List (String × Column) → Except String Unit
  | [] => .ok ()
  | (v, col) :: restPairs =>
    if col.not_null && isNullCell v then
      .error ("Error: Field '" ++ col.name ++ "' doesn't have a default value")
    else if col.is_primary && isNullCell v then
      .error ("Error: Field '" ++ col.name ++ "' doesn't have a default value")
    else checkNullConstraints restPairs

/-- The primary-key uniqueness check of `insert`: the candidate's raw
primary cell, when non-NULL, must differ from every stored row's cell. -/
def checkPkUnique (t : Table) (fullRow : List String) : Except String Unit :=
  match t.columns.findIdx? (fun c => c.is_primary) with
  | none => .ok ()
  | some pkIndex =>
    let pkValue := cellAt fullRow pkIndex
    if ¬ (rustTrim pkValue = "") ∧ ¬ (eqIgnoreAsciiCase (rustTrim pkValue) "null") then
      if t.data.any (fun row => cellAt row pkIndex = pkValue) then
        .error ("Duplicate entry '" ++ pkValue ++ "' for key 'PRIMARY'")
      else .ok ()
    else .ok ()

/-- The `NULL`-literal normalization applied to each cell before a row is
stored. -/
def normalizeNullCell (s : String) : String :=
  if eqIgnoreAsciiCase (rustTrim s) "null" then "" else s

/-- Validation of one candidate row of `insert`, in source order:
build the full row, NOT NULL / primary checks, uniqueness check;
returns the row still to be normalized. -/
def insertRowStep (t : Table) (columns : Option (List String))
    (rowValues : List String) : Except String (List String) :=
  match buildFullRow t columns rowValues with
  | .error e => .error e
  | .ok full =>
    match checkNullConstraints (full.zip t.columns) with
    | .error e => .error e
    | .ok _ =>
      match checkPkUnique t full with
      | .error e => .error e
      | .ok _ => .ok full

/-- The row loop of `insert`: each validated row is appended (after
`NULL` normalization) before the next row is examined, so an error on a
later row keeps the earlier appends. -/
def insertRows (t : Table) (columns : Option (List String)) :
    List (List String) → Nat → Except String Nat × Table
  | [], n => (.ok n, t)
  | rowValues :: restRows, n =>
    match insertRowStep t columns rowValues with
    | .error e => (.error e, t)
    | .ok full =>
      insertRows { t with data := t.data ++ [full.map normalizeNullCell] }
        columns restRows (n + 1)

/-- Rust `Database::insert`.  The Rust method mutates the found table in
place and returns a `Result<usize, String>`; the model returns the
result together with the post-state. -/
def insert (db : Database) (tableName : String) (columns : Option (List String))
    (values : List (List String)) : Except String Nat × Database :=
  match db.tables.findIdx? (fun t => t.name = tableName) with
  | none => (.error "Table not found", db)
  | some i =>
    let t := db.tables.getD i ⟨"", [], []⟩
    let r := insertRows t columns values 0
    (r.1, ⟨db.tables.set i r.2⟩)

/-! ## `Database::update` -/

/-- The `HashMap` built from `column_names.iter().enumerate()`: a later
duplicate column name overwrites an earlier one. -/
def colMapGet (names : List String) (n : String) : Option Nat :=
  (List.range names.length).foldl
    (fun acc i => if names.getD i "" = n then some i else acc) none

/-- Quote/NULL normalization of a `SET` value (`processed_set`). -/
def processSetValue (v : String) : String :=
  if startsWithChar v '"' && endsWithChar v '"' then trimDQ v
  else if startsWithChar v '\'' && endsWithChar v '\'' then
    trimMatches (fun c => c = '\'') v
  else if eqIgnoreAsciiCase v "null" then ""
  else v

/-- Step 5 of `update`: for each `SET` pair naming a primary column, the
proposed new value must differ from every stored row's current cell. -/
def checkUpdatePk (t : Table) (isPrimaryFlags : List Bool) (names : List String) :
    List (String × String) → Except String Unit
  | [] => .ok ()
  | (colName, newValue) :: restPairs =>
    match colMapGet names colName with
    | some idx =>
      if isPrimaryFlags.getD idx false then
        if t.data.any (fun row => cellAt row idx = newValue) then
          .error ("Duplicate entry '" ++ newValue ++ "' for key 'PRIMARY'")
        else checkUpdatePk t isPrimaryFlags names restPairs
      else checkUpdatePk t isPrimaryFlags names restPairs
    | none => checkUpdatePk t isPrimaryFlags names restPairs

/-- The per-row assignment loop of `update` (type check, length check,
NOT NULL check, then in-place assignment); an error keeps the
assignments already applied to the row. -/
def applySetPairs (names : List String) (types : List DataType)
    (notNullFlags : List Bool) :
    List (String × String) → List String → Except (String × List String) (List String)
  | [], row => .ok row
  | (colName, newValue) :: restPairs, row =>
    match colMapGet names colName with
    | none => applySetPairs names types notNullFlags restPairs row
    | some idx =>
      match types.getD idx (.Int 32) with
      | .Int _ =>
        if parseI32 newValue = none then
          .error ("Value '" ++ newValue ++ "' is not INT for column '" ++ colName ++ "'", row)
        else
          if notNullFlags.getD idx false && newValue = "" then
            .error ("Column '" ++ colName ++ "' cannot be null", row)
          else
            applySetPairs names types notNullFlags restPairs (row.set idx newValue)
      | .Varchar maxLen =>
        if newValue.utf8ByteSize > maxLen then
          .error ("Value too long for column '" ++ colName ++ "' (max " ++
            toString maxLen ++ ")", row)
        else
          if notNullFlags.getD idx false && newValue = "" then
            .error ("Column '" ++ colName ++ "' cannot be null", row)
          else
            applySetPairs names types notNullFlags restPairs (row.set idx newValue)

/-- Step 7 of `update`: mutate each matching row in storage order; an
error mid-way keeps all earlier mutations (and the partial row). -/
def updateRows (filter : List String → Bool) (names : List String)
    (types : List DataType) (notNullFlags : List Bool)
    (pairs : List (String × String)) :
    List (List String) → Nat → Except String Nat × List (List String)
  | [], n => (.ok n, [])
  | row :: restRows, n =>
    if filter row then
      match applySetPairs names types notNullFlags pairs row with
      | .error (e, partialRow) => (.error e, partialRow :: restRows)
      | .ok newRow =>
        let r := updateRows filter names types notNullFlags pairs restRows (n + 1)
        (r.1, newRow :: r.2)
    else
      let r := updateRows filter names types notNullFlags pairs restRows n
      (r.1, row :: r.2)

/-- Rust `Database::update`. -/
def update (db : Database) (tableName : String) (set : List (String × String))
    (condition : Option String) : Except String Nat × Database :=
  match db.tables.findIdx? (fun t => t.name = tableName) with
  | none => (.error ("Table '" ++ tableName ++ "' not found"), db)
  | some i =>
    let t := db.tables.getD i ⟨"", [], []⟩
    let names := t.columns.map (fun c => c.name)
    let types := t.columns.map (fun c => c.data_type)
    let notNullFlags := t.columns.map (fun c => c.not_null)
    let isPrimaryFlags := t.columns.map (fun c => c.is_primary)
    let processedSet := set.map (fun p => (p.1, processSetValue p.2))
    match checkUpdatePk t isPrimaryFlags names processedSet with
    | .error e => (.error e, db)
    | .ok _ =>
      let r := updateRows (condFilter condition t.columns) names types
        notNullFlags processedSet t.data 0
      (r.1, ⟨db.tables.set i { t with data := r.2 }⟩)

/-! ## `Database::delete` -/

def delete (db : Database) (tableName : String) (condition : Option String) :
    Except String Nat × Database :=
  match db.tables.findIdx? (fun t => t.name = tableName) with
  | none => (.error ("Table '" ++ tableName ++ "' not found"), db)
  | some i =>
    let t := db.tables.getD i ⟨"", [], []⟩
    let kept := t.data.filter (fun row => ¬ condFilter condition t.columns row)
    (.ok (t.data.length - kept.length), ⟨db.tables.set i { t with data := kept }⟩)

/-! ## `Database::select` -/

/-- The sort comparator of `select`: walk the `(index, type, descending)`
specs; an ascending key decides when it differs, a descending key
returns its reversed comparison unconditionally (so later keys are never
consulted after a descending key, even on a tie — exactly as in the
source). -/
def keyCompare (dt : DataType) (idx : Nat) (a b : List String) : Ordering :=
  match dt with
  | .Int _ => intCompare (i32OrZero (cellAt a idx)) (i32OrZero (cellAt b idx))
  | .Varchar _ => strCompare (cellAt a idx) (cellAt b idx)

def rowCompare (specs : List (Nat × DataType × Bool)) (a b : List String) : Ordering :=
  match specs with
  | [] => .eq
  | (idx, dt, desc) :: restSpecs =>
    let ord := keyCompare dt idx a b
    if desc then ord.swap
    else if ord ≠ .eq then ord
    else rowCompare restSpecs a b

/-- Resolve `order_by` columns to `(index, type, descending)` specs. -/
def resolveSortSpecs (t : Table) :
    List (String × Bool) → Except String (List (Nat × DataType × Bool))
  | [] => .ok []
  | (col, desc) :: restCols =>
    match t.columns.findIdx? (fun c => c.name = col) with
    | none => .error ("Sort column '" ++ col ++ "' not found")
    | some idx =>
      match resolveSortSpecs t restCols with
      | .error e => .error e
      | .ok specs => .ok ((idx, (t.columns.getD idx ⟨"", .Int 0, false, false⟩).data_type, desc) :: specs)

/-- Resolve the projected columns (`["*"]` expands to all indices). -/
def resolveColumnIndices (t : Table) (columns : List String) : Except String (List Nat) :=
  if columns = ["*"] then .ok (List.range t.columns.length)
  else
    columns.foldr
      (fun col acc =>
        match t.columns.findIdx? (fun c => c.name = col) with
        | none => .error ("Column '" ++ col ++ "' not found")
        | some idx =>
          match acc with
          | .error e => .error e
          | .ok idxs => .ok (idx :: idxs))
      (.ok [])

/-- The condition compilation step of `select`: no condition matches
everything, a parse error propagates (`?` in the source). -/
def selectFilter (condition : Option String) (t : Table) :
    Except String (List String → Bool) :=
  match condition with
  | none => .ok (fun _ => true)
  | some cond =>
    match parse_condition cond t with
    | .error e => .error e
    | .ok p => .ok (evalPred p)

/-- Rust `Database::select`.  `sort_by` is Rust's stable sort; it is modelled
by `List.mergeSort` (also stable) on the non-strict relation
`rowCompare ≠ .gt` induced by the comparator, which is a total preorder
(a lexicographic product of total per-key orders, truncated at the
first descending key). -/
def select (db : Database) (tableName : String) (columns : List String)
    (condition : Option String) (orderBy : Option (List (String × Bool))) :
    Except String (List (List String) × Bool) :=
  match db.tables.find? (fun t => t.name = tableName) with
  | none => .error "Table not found"
  | some t =>
    match resolveColumnIndices t columns with
    | .error e => .error e
    | .ok columnIndices =>
      match selectFilter condition t with
      | .error e => .error e
      | .ok filter =>
        let rows := t.data.filter filter
        if rows = [] then .ok ([], false)
        else
          match orderBy with
          | none =>
            .ok (rows.map (fun row => columnIndices.map (fun i => cellAt row i)), true)
          | some cols =>
            match resolveSortSpecs t cols with
            | .error e => .error e
            | .ok specs =>
              let sorted := rows.mergeSort (fun a b => rowCompare specs a b ≠ .gt)
              .ok (sorted.map (fun row => columnIndices.map (fun i => cellAt row i)), true)

/-! ## Spec-side comparator (for comparison with `rowCompare`)

The specification describes the multi-key comparator differently from
the code: a descending flag reverses only that key's comparison result,
and on a tie the NEXT key still decides.  `specOrderCompare` renders the
specification's words; the theorems below compare it with the code's
`rowCompare`. -/

def specOrderCompare (specs : List (Nat × DataType × Bool)) (a b : List String) : Ordering :=
  match specs with
  | [] => .eq
  | (idx, dt, desc) :: restSpecs =>
    let ord := keyCompare dt idx a b
    let ord2 := if desc then ord.swap else ord
    if ord2 ≠ .eq then ord2 else specOrderCompare restSpecs a b

/-! ## Token shapes used by the generic predicate theorems -/

/-- A simple identifier/literal token: nonempty, no whitespace, no
quote characters, no opening parenthesis.  Conditions assembled from
such tokens take the straight path through `parse_condition` (no
quote-space rewriting, no parenthesis branch). -/
def simpleTok (s : String) : Prop :=
  s.data ≠ [] ∧ ∀ c ∈ s.data, ¬ (rustIsWhitespace c = true) ∧ c ≠ '"' ∧ c ≠ '\'' ∧ c ≠ '('

instance (s : String) : Decidable (simpleTok s) := by
  unfold simpleTok
  infer_instance

/-- A quoted literal token: a single or double quote, a body free of
whitespace and of quote characters, and the same closing quote — the
shape the tokenizer reads as one quoted token and `trim_matches`
strips down to the body. -/
def quotedTok (s : String) : Prop :=
  ∃ q body, (q = '"' ∨ q = '\'') ∧ s.data = q :: (body ++ [q]) ∧
    ∀ c ∈ body, ¬ (rustIsWhitespace c = true) ∧ c ≠ '"' ∧ c ≠ '\''

/-- A literal token as the comparison theorems accept it: either a
bare simple token or a quoted one. -/
def litTok (s : String) : Prop :=
  simpleTok s ∨ quotedTok s

/-- Join tokens with single spaces (the shape `column op value`). -/
def joinTokens : List String → String
  | [] => ""
  | [t] => t
  | t :: rest => t ++ " " ++ joinTokens rest

/-! ## Concrete fixtures used by counterexamples and witnesses -/

/-- Table `users(id INT PRIMARY KEY NOT NULL, name VARCHAR(5))` holding
`("1","Alice")` — the table of the spec scenario. -/
def usersTable : Table :=
  ⟨"users", [⟨"id", .Int 32, true, true⟩, ⟨"name", .Varchar 5, false, false⟩],
    [["1", "Alice"]]⟩

def usersDb : Database := ⟨[usersTable]⟩

/-- A three-`Int`-column table for predicate tests. -/
def xyzTable : Table :=
  ⟨"t", [⟨"x", .Int 32, true, true⟩, ⟨"y", .Int 32, false, false⟩,
    ⟨"z", .Int 32, false, false⟩], []⟩

/-- A one-`Varchar`-column table named `x`. -/
def xTable : Table := ⟨"t", [⟨"x", .Varchar 10, false, false⟩], []⟩

/-- Table `t(id INT PRIMARY KEY NOT NULL)` holding rows `1` and `2`. -/
def pkTable : Table := ⟨"t", [⟨"id", .Int 32, true, true⟩], [["1"], ["2"]]⟩

def pkDb : Database := ⟨[pkTable]⟩

/-- Two-`Int`-column table whose rows tie on `b` and differ on `a`,
stored in `a`-descending order. -/
def sortDb : Database :=
  ⟨[⟨"s", [⟨"a", .Int 32, false, false⟩, ⟨"b", .Int 32, false, false⟩],
    [["2", "1"], ["1", "1"]]⟩]⟩

/-- A table with one `Int` column `a` and no rows. -/
def emptyADb : Database := ⟨[⟨"e", [⟨"a", .Int 32, false, false⟩], []⟩]⟩

/-! # Theorems -/

/-! ## List-scan lemmas -/

theorem takeWhile_append_of_all {p : Char → Bool} (l1 l2 : List Char)
    (h : ∀ c ∈ l1, p c = true) :
    (l1 ++ l2).takeWhile p = l1 ++ l2.takeWhile p := by
  induction l1 with
  | nil => simp
  | cons c rest ih =>
    simp only [List.cons_append, List.takeWhile_cons]
    rw [h c (by simp)]
    simp only [if_true]
    rw [ih (fun x hx => h x (by simp [hx]))]

theorem dropWhile_append_of_all {p : Char → Bool} (l1 l2 : List Char)
    (h : ∀ c ∈ l1, p c = true) :
    (l1 ++ l2).dropWhile p = l2.dropWhile p := by
  induction l1 with
  | nil => simp
  | cons c rest ih =>
    simp only [List.cons_append, List.dropWhile_cons]
    rw [h c (by simp)]
    simp only [if_true]
    exact ih (fun x hx => h x (by simp [hx]))

theorem takeWhile_of_all {p : Char → Bool} (l : List Char) (h : ∀ c ∈ l, p c = true) :
    l.takeWhile p = l := by
  have := takeWhile_append_of_all l [] h
  simpa using this

theorem dropWhile_of_all {p : Char → Bool} (l : List Char) (h : ∀ c ∈ l, p c = true) :
    l.dropWhile p = [] := by
  have := dropWhile_append_of_all l [] h
  simpa using this

theorem trimMatchesList_eq_self {p : Char → Bool} (cs : List Char) (hne : cs ≠ [])
    (hh : ∀ c, cs.head? = some c → p c = false)
    (hl : ∀ c, cs.getLast? = some c → p c = false) :
    trimMatchesList p cs = cs := by
  obtain ⟨c, rest, rfl⟩ := List.exists_cons_of_ne_nil hne
  unfold trimMatchesList
  rw [List.dropWhile_cons, hh c rfl]
  simp only [Bool.false_eq_true, if_false]
  have hrne : (c :: rest).reverse ≠ [] := by simp
  obtain ⟨d, ds, hrev⟩ := List.exists_cons_of_ne_nil hrne
  have hlast : (c :: rest).getLast? = some d := by
    rw [← List.head?_reverse, hrev]
    rfl
  rw [hrev, List.dropWhile_cons, hl d hlast]
  simp only [Bool.false_eq_true, if_false]
  rw [← hrev, List.reverse_reverse]

theorem rustTrim_eq_self (s : String) (hne : s.data ≠ [])
    (hh : ∀ c, s.data.head? = some c → rustIsWhitespace c = false)
    (hl : ∀ c, s.data.getLast? = some c → rustIsWhitespace c = false) :
    rustTrim s = s := by
  show String.mk (trimMatchesList rustIsWhitespace s.data) = s
  rw [trimMatchesList_eq_self s.data hne hh hl]

theorem replaceQuotedSpaces_id (cs : List Char)
    (h : ∀ c ∈ cs, c ≠ '"' ∧ c ≠ '\'') :
    replaceQuotedSpaces cs false = cs := by
  induction cs with
  | nil => rfl
  | cons c rest ih =>
    have hc := h c (by simp)
    simp only [replaceQuotedSpaces]
    rw [if_neg (by simp [hc.1, hc.2])]
    rw [if_neg (by simp)]
    rw [ih (fun x hx => h x (by simp [hx]))]

theorem restoreSpaces_id (cs : List Char) (h : ∀ c ∈ cs, c ≠ nbsp) :
    restoreSpaces cs = cs := by
  induction cs with
  | nil => rfl
  | cons c rest ih =>
    simp only [restoreSpaces, List.map_cons]
    rw [if_neg (h c (by simp))]
    have := ih (fun x hx => h x (by simp [hx]))
    simp only [restoreSpaces] at this
    rw [this]

/-! ## Tokenizer lemmas -/

theorem tokenizeF_fuel : ∀ (f1 : Nat) (cs : List Char) (f2 : Nat),
    cs.length ≤ f1 → cs.length ≤ f2 → tokenizeF f1 cs = tokenizeF f2 cs := by
  intro f1
  induction f1 with
  | zero =>
    intro cs f2 h1 _
    have : cs = [] := List.length_eq_zero.mp (Nat.le_zero.mp h1)
    subst this
    cases f2 <;> rfl
  | succ f1 ih =>
    intro cs f2 h1 h2
    cases cs with
    | nil => cases f2 <;> rfl
    | cons c rest =>
      cases f2 with
      | zero => simp at h2
      | succ f2 =>
        simp only [List.length_cons] at h1 h2
        simp only [tokenizeF]
        by_cases hws : rustIsWhitespace c = true
        · simp only [hws, if_true]
          exact ih rest f2 (by omega) (by omega)
        · simp only [hws, Bool.false_eq_true, if_false]
          by_cases hq : ((c = '"' || c = '\'') && rest.contains c) = true
          · simp only [hq, if_true]
            have hlen : ((rest.dropWhile (fun x => x ≠ c)).tail).length ≤ rest.length := by
              have ht : ((rest.dropWhile (fun x => x ≠ c)).tail).length ≤
                  (rest.dropWhile (fun x => x ≠ c)).length := by
                simp [List.length_tail]
              have hd : (rest.dropWhile (fun x => x ≠ c)).length ≤ rest.length :=
                (List.dropWhile_sublist _).length_le
              omega
            rw [ih _ f2 (by omega) (by omega)]
          · simp only [hq, Bool.false_eq_true, if_false]
            have hd : (rest.dropWhile (fun x => ¬ rustIsWhitespace x)).length ≤ rest.length :=
              (List.dropWhile_sublist _).length_le
            rw [ih _ f2 (by omega) (by omega)]

theorem tokenizeF_tok_space (tok : String) (suffix : List Char) (h : simpleTok tok)
    (f : Nat) (hf : tok.data.length + suffix.length < f) :
    tokenizeF f (tok.data ++ ' ' :: suffix) = tok :: tokenizeF (suffix.length + 1) suffix := by
  obtain ⟨hne, hall⟩ := h
  obtain ⟨c, ct, hcd⟩ := List.exists_cons_of_ne_nil hne
  have hlen : tok.data.length ≥ 1 := by rw [hcd]; simp
  obtain ⟨f1, rfl⟩ : ∃ f1, f = f1 + 1 := ⟨f - 1, by omega⟩
  rw [hcd]
  simp only [List.cons_append, tokenizeF]
  have hcmem : c ∈ tok.data := by rw [hcd]; simp
  have hc := hall c hcmem
  rw [if_neg (by simp [hc.1])]
  rw [if_neg (by simp [hc.2.1, hc.2.2.1])]
  have hct : ∀ x ∈ ct, (¬ rustIsWhitespace x : Bool) = true := by
    intro x hx
    have := hall x (by rw [hcd]; simp [hx])
    simp [this.1]
  have htake : (ct ++ ' ' :: suffix).takeWhile (fun x => ¬ rustIsWhitespace x) = ct := by
    rw [takeWhile_append_of_all ct (' ' :: suffix) hct]
    simp [List.takeWhile_cons, rustIsWhitespace]
  have hdrop : (ct ++ ' ' :: suffix).dropWhile (fun x => ¬ rustIsWhitespace x) =
      ' ' :: suffix := by
    rw [dropWhile_append_of_all ct (' ' :: suffix) hct]
    simp [List.dropWhile_cons, rustIsWhitespace]
  simp only [List.takeWhile_cons]
  rw [if_pos (by simp [hc.1])]
  simp only [List.append_eq]
  rw [htake, hdrop]
  have hmk : String.mk (c :: ct) = tok := by rw [← hcd]
  rw [hmk]
  obtain ⟨f2, rfl⟩ : ∃ f2, f1 = f2 + 1 := by
    refine ⟨f1 - 1, ?_⟩
    rw [hcd] at hf
    simp at hf
    omega
  have hwstep : tokenizeF (f2 + 1) (' ' :: suffix) = tokenizeF f2 suffix := by
    simp only [tokenizeF]
    rw [if_pos (by simp [rustIsWhitespace])]
  rw [hwstep]
  congr 1
  apply tokenizeF_fuel
  · rw [hcd] at hf
    simp at hf
    omega
  · omega

theorem tokenizeF_single (tok : String) (h : simpleTok tok) (f : Nat)
    (hf : tok.data.length ≤ f) :
    tokenizeF f tok.data = [tok] := by
  obtain ⟨hne, hall⟩ := h
  obtain ⟨c, ct, hcd⟩ := List.exists_cons_of_ne_nil hne
  have hlen : tok.data.length ≥ 1 := by rw [hcd]; simp
  obtain ⟨f1, rfl⟩ : ∃ f1, f = f1 + 1 := ⟨f - 1, by omega⟩
  rw [hcd]
  simp only [tokenizeF]
  have hcmem : c ∈ tok.data := by rw [hcd]; simp
  have hc := hall c hcmem
  rw [if_neg (by simp [hc.1])]
  rw [if_neg (by simp [hc.2.1, hc.2.2.1])]
  have hct : ∀ x ∈ ct, (¬ rustIsWhitespace x : Bool) = true := by
    intro x hx
    have := hall x (by rw [hcd]; simp [hx])
    simp [this.1]
  simp only [List.takeWhile_cons]
  rw [if_pos (by simp [hc.1])]
  rw [takeWhile_of_all ct hct, dropWhile_of_all ct hct]
  have hmk : String.mk (c :: ct) = tok := by rw [← hcd]
  rw [hmk]
  cases f1 <;> rfl

/-- Claim C1 (code bug): `Database::insert` performs no type check at
all.  Inserting `("2","TooLong")` into
`users(id INT PRIMARY KEY NOT NULL, name VARCHAR(5))` succeeds and
appends the row even though `"TooLong"` exceeds the declared maximum
length 5 (the claim says it must fail with a value-too-long error and
not append); the duplicate-key part of the scenario does hold. -/
theorem C1_insert_skips_type_check :
    insert usersDb "users" none [["2", "TooLong"]] =
      (.ok 1, ⟨[⟨"users", usersTable.columns, [["1", "Alice"], ["2", "TooLong"]]⟩]⟩) ∧
    "TooLong".utf8ByteSize > 5 ∧
    insert usersDb "users" none [["1", "Bob"]] =
      (.error "Duplicate entry '1' for key 'PRIMARY'", usersDb) := by
  refine ⟨rfl, by decide, rfl⟩

/-- Claim C2 (code bug): `parse_condition` splits on the outermost
`AND` before `OR`, which gives `AND` the lower precedence: the text
`"x = 1 OR y = 1 AND z = 1"` compiles to `(x=1 OR y=1) AND z=1`, which
is `false` on the row `(1,1,0)` where the claimed reading
`x=1 OR (y=1 AND z=1)` is `true`. -/
theorem C2_and_or_precedence_flipped :
    parse_condition "x = 1 OR y = 1 AND z = 1" xyzTable =
      .ok (.andP (.orP (.eqP 0 "1") (.eqP 1 "1")) (.eqP 2 "1")) ∧
    evalPred (.andP (.orP (.eqP 0 "1") (.eqP 1 "1")) (.eqP 2 "1")) ["1", "1", "0"] = false ∧
    evalPred (.orP (.eqP 0 "1") (.andP (.eqP 1 "1") (.eqP 2 "1"))) ["1", "1", "0"] = true := by
  refine ⟨rfl, by decide, by decide⟩

/-- Claim C3 (code bug): an `update` that assigns the primary column a
fresh value while its condition matches both rows duplicates the key:
after `create_table`, inserting `1` and `2` and running
`UPDATE t SET id = 3` (no condition), the table stores two rows whose
primary cells are both the non-NULL value `"3"`. -/
theorem C3_update_breaks_pk_uniqueness :
    create_table ⟨[]⟩ "t" [("id", DataType.Int 32, true, true)] =
      .ok ⟨[⟨"t", [⟨"id", .Int 32, true, true⟩], []⟩]⟩ ∧
    insert ⟨[⟨"t", [⟨"id", .Int 32, true, true⟩], []⟩]⟩ "t" none [["1"], ["2"]] =
      (.ok 2, pkDb) ∧
    update pkDb "t" [("id", "3")] none =
      (.ok 2, ⟨[⟨"t", [⟨"id", .Int 32, true, true⟩], [["3"], ["3"]]⟩]⟩) ∧
    isNullCell "3" = false := by
  refine ⟨rfl, rfl, rfl, by decide⟩

/-- Claim C4, counterexample: with sort keys `[(b, desc), (a, asc)]` on
rows that tie on `b` and differ on `a`, the code keeps the original
(`a`-descending) order because a descending key that compares equal
ends the comparison, while the claim's comparator consults the next key
(`specOrderCompare` orders the rows `a`-ascending, i.e. returns `.gt`
for the stored pair where the code's `rowCompare` returns `.eq`). -/
theorem C4_counterexample_desc_tie :
    select sortDb "s" ["*"] none (some [("b", true), ("a", false)]) =
      .ok ([["2", "1"], ["1", "1"]], true) ∧
    specOrderCompare [(1, .Int 32, true), (0, .Int 32, false)] ["2", "1"] ["1", "1"] = .gt ∧
    rowCompare [(1, .Int 32, true), (0, .Int 32, false)] ["2", "1"] ["1", "1"] = .eq := by
  refine ⟨?_, by decide, by decide⟩
  have h : sortDb.tables.find? (fun t => t.name = "s") =
      some ⟨"s", [⟨"a", .Int 32, false, false⟩, ⟨"b", .Int 32, false, false⟩],
        [["2", "1"], ["1", "1"]]⟩ := by rfl
  simp only [select, h]
  simp [selectFilter, List.mergeSort, List.merge, List.splitInTwo]
  rfl

/-- Claim C5, counterexample: the compiled `IS NULL` predicate tests
whether the cell is empty after stripping double quotes, not the
Enforcer's NULL test: the whitespace-only cell `" "` is NULL for the
Enforcer but `IS NULL` does not match it (and `IS NOT NULL` does). -/
theorem C5_counterexample_whitespace_cell :
    parse_condition "x IS NULL" xTable = .ok (.isNullP 0) ∧
    evalPred (.isNullP 0) [" "] = false ∧
    isNullCell " " = true ∧
    parse_condition "x IS NOT NULL" xTable = .ok (.isNotNullP 0) ∧
    evalPred (.isNotNullP 0) [" "] = true := by
  refine ⟨rfl, by decide, by decide, rfl, by decide⟩

/-- Claim C7, counterexample: when the condition matches no rows (here:
an empty table), `select` returns the empty result before the
`order_by` columns are resolved, so an unknown sort column does not
produce an error. -/
theorem C7_counterexample_unknown_sort_column :
    select emptyADb "e" ["*"] none (some [("bogus", false)]) = .ok ([], false) ∧
    (emptyADb.tables.getD 0 ⟨"", [], []⟩).columns.findIdx?
      (fun c => c.name = "bogus") = none := by
  refine ⟨rfl, rfl⟩

/-! ## `joinTokens` lemmas -/

theorem joinTokens_data_cons (t r0 : String) (rest : List String) :
    (joinTokens (t :: r0 :: rest)).data = t.data ++ ' ' :: (joinTokens (r0 :: rest)).data := by
  show ((t ++ " ") ++ joinTokens (r0 :: rest)).data = _
  rw [String.data_append (t ++ " ") (joinTokens (r0 :: rest)),
    String.data_append t " "]
  simp

theorem mem_joinTokens : ∀ (ts : List String) (c : Char),
    c ∈ (joinTokens ts).data → c = ' ' ∨ ∃ s ∈ ts, c ∈ s.data := by
  intro ts
  induction ts with
  | nil => intro c hc; cases hc
  | cons t rest ih =>
    intro c hc
    cases rest with
    | nil =>
      right
      exact ⟨t, by simp, hc⟩
    | cons r0 rest2 =>
      rw [joinTokens_data_cons] at hc
      rcases List.mem_append.mp hc with h1 | h2
      · right
        exact ⟨t, by simp, h1⟩
      · rcases List.mem_cons.mp h2 with h3 | h4
        · left
          exact h3
        · rcases ih c h4 with h5 | ⟨s, hs1, hs2⟩
          · left
            exact h5
          · right
            exact ⟨s, by simp [hs1], hs2⟩

theorem joinTokens_data_ne_nil : ∀ (ts : List String), ts ≠ [] →
    (∀ s ∈ ts, simpleTok s) → (joinTokens ts).data ≠ [] := by
  intro ts
  induction ts with
  | nil => intro h; exact absurd rfl h
  | cons t rest _ =>
    intro _ hall
    cases rest with
    | nil => exact (hall t (by simp)).1
    | cons r0 rest2 =>
      rw [joinTokens_data_cons]
      simp [(hall t (by simp)).1]

theorem joinTokens_head? (t : String) (rest : List String) (h : t.data ≠ []) :
    (joinTokens (t :: rest)).data.head? = t.data.head? := by
  cases rest with
  | nil => rfl
  | cons r0 rest2 =>
    rw [joinTokens_data_cons]
    obtain ⟨c, ct, hcd⟩ := List.exists_cons_of_ne_nil h
    rw [hcd]
    rfl

theorem joinTokens_getLast_nonws : ∀ (ts : List String), ts ≠ [] →
    (∀ s ∈ ts, simpleTok s) →
    ∀ c, (joinTokens ts).data.getLast? = some c → rustIsWhitespace c = false := by
  intro ts
  induction ts with
  | nil => intro h; exact absurd rfl h
  | cons t rest ih =>
    intro _ hall c hc
    cases rest with
    | nil =>
      have ht := hall t (by simp)
      have hdne := ht.1
      rw [show joinTokens [t] = t from rfl] at hc
      rw [List.getLast?_eq_getLast _ hdne] at hc
      have := List.getLast_mem hdne
      have hmem : c ∈ t.data := by
        cases hc
        exact this
      simpa using (ht.2 c hmem).1
    | cons r0 rest2 =>
      rw [joinTokens_data_cons] at hc
      have hjne : (joinTokens (r0 :: rest2)).data ≠ [] :=
        joinTokens_data_ne_nil (r0 :: rest2) (by simp)
          (fun s hs => hall s (by simp [hs]))
      rw [List.getLast?_append_of_ne_nil t.data (by simp)] at hc
      have : (' ' :: (joinTokens (r0 :: rest2)).data) =
          [' '] ++ (joinTokens (r0 :: rest2)).data := rfl
      rw [this, List.getLast?_append_of_ne_nil [' '] hjne] at hc
      exact ih (by simp) (fun s hs => hall s (by simp [hs])) c hc

theorem tokenize_joinTokens : ∀ (ts : List String), ts ≠ [] →
    (∀ s ∈ ts, simpleTok s) → tokenize (joinTokens ts) = ts := by
  intro ts
  induction ts with
  | nil => intro h; exact absurd rfl h
  | cons t rest ih =>
    intro _ hall
    cases rest with
    | nil =>
      rw [show joinTokens [t] = t from rfl]
      exact tokenizeF_single t (hall t (by simp)) _ (by omega)
    | cons r0 rest2 =>
      show tokenizeF ((joinTokens (t :: r0 :: rest2)).data.length + 1) _ = _
      rw [joinTokens_data_cons]
      have hlen : (t.data ++ ' ' :: (joinTokens (r0 :: rest2)).data).length =
          t.data.length + (joinTokens (r0 :: rest2)).data.length + 1 := by
        simp
        omega
      rw [hlen]
      rw [tokenizeF_tok_space t _ (hall t (by simp)) _ (by omega)]
      have := ih (by simp) (fun s hs => hall s (by simp [hs]))
      show _ = t :: r0 :: rest2
      rw [show tokenizeF ((joinTokens (r0 :: rest2)).data.length + 1)
          (joinTokens (r0 :: rest2)).data = tokenize (joinTokens (r0 :: rest2)) from rfl]
      rw [this]

/-! ## From `parse_condition` to `parse_single_condition` -/

/-- On a condition that the quote-space pre-pass leaves unchanged,
with no leading parenthesis, no surrounding whitespace, no
non-breaking space and no outer `AND`/`OR`, `parse_condition` reduces
to `parse_single_condition`. -/
theorem parse_cond_to_single (t : Table) (cond : String)
    (hne : cond.data ≠ [])
    (hh : ∀ c, cond.data.head? = some c → rustIsWhitespace c = false)
    (hl : ∀ c, cond.data.getLast? = some c → rustIsWhitespace c = false)
    (hrq : replaceQuotedSpaces cond.data false = cond.data)
    (hnb : ∀ c ∈ cond.data, c ≠ nbsp)
    (hp : ∀ c, cond.data.head? = some c → c ≠ '(')
    (hAnd : find_outer_operator cond "AND" = none)
    (hOr : find_outer_operator cond "OR" = none) :
    parse_condition cond t = parse_single_condition cond t := by
  have htrim : rustTrim cond = cond := rustTrim_eq_self cond hne hh hl
  have hcne : cond ≠ "" := by
    intro hEq
    rw [hEq] at hne
    exact hne rfl
  have hrs : restoreSpaces cond.data = cond.data := restoreSpaces_id cond.data hnb
  have hmk : String.mk cond.data = cond := rfl
  have hhead : cond.data.headD ' ' ≠ '(' := by
    obtain ⟨c, rest, hcd⟩ := List.exists_cons_of_ne_nil hne
    rw [hcd]
    exact hp c (by rw [hcd]; rfl)
  show parseCondFuel t (cond.length + 1) cond = _
  rw [parseCondFuel, htrim, if_neg hcne]
  simp only [hrq, hmk]
  rw [if_neg ?hparen]
  case hparen =>
    simp only [Bool.and_eq_true, decide_eq_true_eq]
    intro hcontra
    exact hhead hcontra.1
  rw [hAnd, hOr, hrs]

/-- Running `parse_condition` on a space-joined list of simple tokens with no
outer `AND`/`OR`. -/
theorem parse_joinTokens_single (t : Table) (ts : List String)
    (hts : ts ≠ []) (hall : ∀ s ∈ ts, simpleTok s)
    (hAnd : find_outer_operator (joinTokens ts) "AND" = none)
    (hOr : find_outer_operator (joinTokens ts) "OR" = none) :
    parse_condition (joinTokens ts) t = parse_single_condition (joinTokens ts) t := by
  obtain ⟨t0, rest, rfl⟩ := List.exists_cons_of_ne_nil hts
  have ht0 := hall t0 (by simp)
  have hne := joinTokens_data_ne_nil (t0 :: rest) hts hall
  have hhd := joinTokens_head? t0 rest ht0.1
  refine parse_cond_to_single t (joinTokens (t0 :: rest)) hne ?_ ?_ ?_ ?_ ?_ hAnd hOr
  · intro c hc
    rw [hhd] at hc
    obtain ⟨c0, ct, hcd⟩ := List.exists_cons_of_ne_nil ht0.1
    rw [hcd] at hc
    cases hc
    have : c ∈ t0.data := by rw [hcd]; simp
    simpa using (ht0.2 c this).1
  · exact joinTokens_getLast_nonws (t0 :: rest) hts hall
  · apply replaceQuotedSpaces_id
    intro c hc
    rcases mem_joinTokens (t0 :: rest) c hc with h1 | ⟨s, hs1, hs2⟩
    · subst h1
      refine ⟨by decide, by decide⟩
    · have := (hall s hs1).2 c hs2
      exact ⟨this.2.1, this.2.2.1⟩
  · intro c hc
    rcases mem_joinTokens (t0 :: rest) c hc with h1 | ⟨s, hs1, hs2⟩
    · subst h1
      decide
    · have hcs := (hall s hs1).2 c hs2
      intro hcontra
      rw [hcontra] at hcs
      have : rustIsWhitespace nbsp = true := by decide
      simp [this] at hcs
  · intro c hc
    rw [hhd] at hc
    obtain ⟨c0, ct, hcd⟩ := List.exists_cons_of_ne_nil ht0.1
    rw [hcd] at hc
    cases hc
    have : c ∈ t0.data := by rw [hcd]; simp
    exact (ht0.2 c this).2.2.2

/-! ## Quoted-literal tokens (for the amended C9) -/

theorem rqs_append_left_no_quotes (l1 l2 : List Char)
    (h : ∀ c ∈ l1, c ≠ '"' ∧ c ≠ '\'') :
    replaceQuotedSpaces (l1 ++ l2) false = l1 ++ replaceQuotedSpaces l2 false := by
  induction l1 with
  | nil => simp
  | cons c r ih =>
    have hc := h c (by simp)
    simp only [List.cons_append, replaceQuotedSpaces]
    rw [if_neg (by simp [hc.1, hc.2])]
    rw [if_neg (by simp)]
    simp only [List.append_eq]
    rw [ih (fun x hx => h x (by simp [hx]))]

theorem rqs_no_ws (l : List Char) (h : ∀ c ∈ l, ¬ (rustIsWhitespace c = true)) :
    ∀ b, replaceQuotedSpaces l b = l := by
  induction l with
  | nil => intro b; rfl
  | cons c r ih =>
    intro b
    have hc := h c (by simp)
    have hcs : c ≠ ' ' := by
      intro hcontra
      rw [hcontra] at hc
      exact hc (by decide)
    by_cases hq : ((c = '"' || c = '\'') : Bool) = true
    · simp only [replaceQuotedSpaces]
      rw [if_pos hq]
      rw [ih (fun x hx => h x (by simp [hx])) (!b)]
    · simp only [replaceQuotedSpaces]
      rw [if_neg hq]
      rw [if_neg (by simp [hcs])]
      rw [ih (fun x hx => h x (by simp [hx])) b]

theorem litTok_ne_nil (s : String) (h : litTok s) : s.data ≠ [] := by
  rcases h with h | ⟨q, body, _, hdata, _⟩
  · exact h.1
  · rw [hdata]
    simp

theorem litTok_nonws (s : String) (h : litTok s) :
    ∀ c ∈ s.data, ¬ (rustIsWhitespace c = true) := by
  rcases h with h | ⟨q, body, hq, hdata, hbody⟩
  · intro c hc
    exact (h.2 c hc).1
  · intro c hc
    rw [hdata] at hc
    rcases List.mem_cons.mp hc with rfl | hc2
    · rcases hq with rfl | rfl <;> decide
    · rcases List.mem_append.mp hc2 with h3 | h4
      · exact (hbody c h3).1
      · have hcq : c = q := by simpa using h4
        subst hcq
        rcases hq with rfl | rfl <;> decide

theorem litTok_getLast_nonws (s : String) (h : litTok s) :
    ∀ c, s.data.getLast? = some c → rustIsWhitespace c = false := by
  intro c hc
  have hne := litTok_ne_nil s h
  rw [List.getLast?_eq_getLast _ hne] at hc
  have hmem : c ∈ s.data := by
    cases hc
    exact List.getLast_mem hne
  simpa using litTok_nonws s h c hmem

theorem litTok_no_nbsp (s : String) (h : litTok s) : ∀ c ∈ s.data, c ≠ nbsp := by
  intro c hc hcontra
  have := litTok_nonws s h c hc
  rw [hcontra] at this
  exact this (by decide)

theorem tokenizeF_quoted_single (tok : String) (h : quotedTok tok) (f : Nat)
    (hf : tok.data.length ≤ f) :
    tokenizeF f tok.data = [tok] := by
  obtain ⟨q, body, hq, hdata, hbody⟩ := h
  have hlen : tok.data.length ≥ 2 := by
    rw [hdata]
    simp
  obtain ⟨f1, rfl⟩ : ∃ f1, f = f1 + 1 := ⟨f - 1, by omega⟩
  rw [hdata]
  simp only [tokenizeF]
  have hqws : rustIsWhitespace q = false := by
    rcases hq with rfl | rfl <;> decide
  rw [if_neg (by simp [hqws])]
  have hcont : (body ++ [q]).contains q = true := by
    simp
  rw [if_pos (by rcases hq with rfl | rfl <;> simp [hcont])]
  have hbq : ∀ x ∈ body, ((x ≠ q) : Bool) = true := by
    intro x hx
    have := hbody x hx
    rcases hq with rfl | rfl <;> simp [this.2.1, this.2.2]
  have htake : (body ++ [q]).takeWhile (fun x => x ≠ q) = body := by
    rw [takeWhile_append_of_all body [q] hbq]
    simp
  have hdrop : (body ++ [q]).dropWhile (fun x => x ≠ q) = [q] := by
    rw [dropWhile_append_of_all body [q] hbq]
    simp
  rw [htake, hdrop]
  have hmk : String.mk (q :: (body ++ [q])) = tok := by
    rw [← hdata]
  rw [hmk]
  cases f1 <;> rfl

/-- Tokenizing `column op literal` where the literal may be quoted. -/
theorem tokenize_three_tokens (col op tok : String)
    (hcol : simpleTok col) (hop : simpleTok op) (htok : litTok tok) :
    tokenize (joinTokens [col, op, tok]) = [col, op, tok] := by
  show tokenizeF _ _ = _
  rw [joinTokens_data_cons col op [tok]]
  have hL1 : (col.data ++ ' ' :: (joinTokens [op, tok]).data).length =
      col.data.length + (joinTokens [op, tok]).data.length + 1 := by
    simp
    omega
  rw [hL1]
  rw [tokenizeF_tok_space col _ hcol _ (by omega)]
  rw [joinTokens_data_cons op tok []]
  rw [show joinTokens [tok] = tok from rfl]
  have hL2 : (op.data ++ ' ' :: tok.data).length =
      op.data.length + tok.data.length + 1 := by
    simp
    omega
  rw [hL2]
  rw [tokenizeF_tok_space op _ hop _ (by omega)]
  rcases htok with hs | hqt
  · rw [tokenizeF_single tok hs _ (by omega)]
  · rw [tokenizeF_quoted_single tok hqt _ (by omega)]

/-- Running `parse_condition` on `column op literal` with a possibly
quoted literal reduces to `parse_single_condition`. -/
theorem parse_threeTok_single (t : Table) (col op tok : String)
    (hcol : simpleTok col) (hop : simpleTok op) (htok : litTok tok)
    (hAnd : find_outer_operator (joinTokens [col, op, tok]) "AND" = none)
    (hOr : find_outer_operator (joinTokens [col, op, tok]) "OR" = none) :
    parse_condition (joinTokens [col, op, tok]) t =
      parse_single_condition (joinTokens [col, op, tok]) t := by
  have hdata : (joinTokens [col, op, tok]).data =
      col.data ++ ' ' :: (op.data ++ ' ' :: tok.data) := by
    rw [joinTokens_data_cons col op [tok], joinTokens_data_cons op tok [],
      show joinTokens [tok] = tok from rfl]
  have htne := litTok_ne_nil tok htok
  have hcne : (joinTokens [col, op, tok]).data ≠ [] := by
    rw [hdata]
    simp
  have hhd := joinTokens_head? col [op, tok] hcol.1
  refine parse_cond_to_single t _ hcne ?_ ?_ ?_ ?_ ?_ hAnd hOr
  · intro c hc
    rw [hhd] at hc
    obtain ⟨c0, ct, hcd⟩ := List.exists_cons_of_ne_nil hcol.1
    rw [hcd] at hc
    cases hc
    have : c ∈ col.data := by rw [hcd]; simp
    simpa using (hcol.2 c this).1
  · intro c hc
    rw [hdata] at hc
    rw [List.getLast?_append_of_ne_nil col.data (by simp)] at hc
    rw [show (' ' :: (op.data ++ ' ' :: tok.data)) =
      [' '] ++ (op.data ++ ' ' :: tok.data) from rfl] at hc
    rw [List.getLast?_append_of_ne_nil [' '] (by simp)] at hc
    rw [List.getLast?_append_of_ne_nil op.data (by simp)] at hc
    rw [show (' ' :: tok.data) = [' '] ++ tok.data from rfl] at hc
    rw [List.getLast?_append_of_ne_nil [' '] htne] at hc
    exact litTok_getLast_nonws tok htok c hc
  · rw [hdata]
    rw [show col.data ++ ' ' :: (op.data ++ ' ' :: tok.data) =
      (col.data ++ ' ' :: op.data ++ [' ']) ++ tok.data from by simp]
    rw [rqs_append_left_no_quotes (col.data ++ ' ' :: op.data ++ [' ']) tok.data ?hpre]
    · rw [rqs_no_ws tok.data (litTok_nonws tok htok) false]
    case hpre =>
      intro c hc
      rcases List.mem_append.mp hc with h12 | h3
      · rcases List.mem_append.mp h12 with h1 | h2
        · have := hcol.2 c h1
          exact ⟨this.2.1, this.2.2.1⟩
        · rcases List.mem_cons.mp h2 with rfl | h2b
          · refine ⟨by decide, by decide⟩
          · have := hop.2 c h2b
            exact ⟨this.2.1, this.2.2.1⟩
      · have hsp : c = ' ' := by simpa using h3
        subst hsp
        refine ⟨by decide, by decide⟩
  · intro c hc
    rw [hdata] at hc
    rcases List.mem_append.mp hc with h1 | h2
    · intro hcontra
      have := (hcol.2 c h1).1
      rw [hcontra] at this
      exact this (by decide)
    · rcases List.mem_cons.mp h2 with rfl | h3
      · decide
      · rcases List.mem_append.mp h3 with h4 | h5
        · intro hcontra
          have := (hop.2 c h4).1
          rw [hcontra] at this
          exact this (by decide)
        · rcases List.mem_cons.mp h5 with rfl | h6
          · decide
          · exact litTok_no_nbsp tok htok c h6
  · intro c hc
    rw [hhd] at hc
    obtain ⟨c0, ct, hcd⟩ := List.exists_cons_of_ne_nil hcol.1
    rw [hcd] at hc
    cases hc
    have : c ∈ col.data := by rw [hcd]; simp
    exact (hcol.2 c this).2.2.2

/-! ## Lemmas about `select` column resolution (for C7) -/

theorem resolveColsFold_error (t : Table) : ∀ (cols : List String) (c : String),
    c ∈ cols → t.columns.findIdx? (fun cc => cc.name = c) = none →
    ∃ c2, cols.foldr
      (fun col acc =>
        match t.columns.findIdx? (fun cc => cc.name = col) with
        | none => Except.error ("Column '" ++ col ++ "' not found")
        | some idx =>
          match acc with
          | .error e => .error e
          | .ok idxs => .ok (idx :: idxs))
      (Except.ok ([] : List Nat)) = .error ("Column '" ++ c2 ++ "' not found") := by
  intro cols
  induction cols with
  | nil => intro c hc; cases hc
  | cons c0 rest ih =>
    intro c hmem hnone
    simp only [List.foldr_cons]
    cases h0 : t.columns.findIdx? (fun cc => cc.name = c0) with
    | none => exact ⟨c0, rfl⟩
    | some j =>
      rcases List.mem_cons.mp hmem with rfl | hmem2
      · rw [h0] at hnone
        cases hnone
      · obtain ⟨c2, hc2⟩ := ih c hmem2 hnone
        refine ⟨c2, ?_⟩
        rw [hc2]

theorem resolveColumnIndices_error (t : Table) (cols : List String) (c : String)
    (hW : cols ≠ ["*"]) (hmem : c ∈ cols)
    (hnone : t.columns.findIdx? (fun cc => cc.name = c) = none) :
    ∃ c2, resolveColumnIndices t cols = .error ("Column '" ++ c2 ++ "' not found") := by
  unfold resolveColumnIndices
  rw [if_neg hW]
  exact resolveColsFold_error t cols c hmem hnone

theorem resolveSortSpecs_error (t : Table) : ∀ (sortCols : List (String × Bool))
    (sc : String) (d : Bool), (sc, d) ∈ sortCols →
    t.columns.findIdx? (fun c => c.name = sc) = none →
    ∃ c2, resolveSortSpecs t sortCols = .error ("Sort column '" ++ c2 ++ "' not found") := by
  intro sortCols
  induction sortCols with
  | nil => intro sc d h; cases h
  | cons p rest ih =>
    intro sc d hmem hnone
    obtain ⟨pc, pd⟩ := p
    simp only [resolveSortSpecs]
    cases h0 : t.columns.findIdx? (fun c => c.name = pc) with
    | none => exact ⟨pc, rfl⟩
    | some j =>
      rcases List.mem_cons.mp hmem with heq | hmem2
      · obtain ⟨h1, _⟩ := Prod.mk.injEq .. ▸ heq
        subst h1
        rw [h0] at hnone
        cases hnone
      · obtain ⟨c2, hc2⟩ := ih sc d hmem2 hnone
        refine ⟨c2, ?_⟩
        rw [hc2]

/-- Claim C7, amended: an unknown table name and an unknown projected
column name always make `select` fail; an unknown `order_by` column
makes it fail exactly when at least one row passes the filter — when
the filter matches no rows, `select` returns the empty `Ok` result
before ever resolving the sort columns. -/
theorem C7_amended_select_errors :
    (∀ (db : Database) (tableName : String) (cols : List String)
        (condition : Option String) (orderBy : Option (List (String × Bool))),
      db.tables.find? (fun tb => tb.name = tableName) = none →
      select db tableName cols condition orderBy = .error "Table not found") ∧
    (∀ (db : Database) (tableName : String) (t : Table) (cols : List String)
        (condition : Option String) (orderBy : Option (List (String × Bool)))
        (c : String),
      db.tables.find? (fun tb => tb.name = tableName) = some t →
      cols ≠ ["*"] → c ∈ cols →
      t.columns.findIdx? (fun cc => cc.name = c) = none →
      ∃ c2, select db tableName cols condition orderBy =
        .error ("Column '" ++ c2 ++ "' not found")) ∧
    (∀ (db : Database) (tableName : String) (t : Table) (cols : List String)
        (condition : Option String) (ob : List (String × Bool))
        (idxs : List Nat) (f : List String → Bool),
      db.tables.find? (fun tb => tb.name = tableName) = some t →
      resolveColumnIndices t cols = .ok idxs →
      selectFilter condition t = .ok f →
      t.data.filter f = [] →
      select db tableName cols condition (some ob) = .ok ([], false)) ∧
    (∀ (db : Database) (tableName : String) (t : Table) (cols : List String)
        (condition : Option String) (ob : List (String × Bool))
        (idxs : List Nat) (f : List String → Bool) (sc : String) (d : Bool),
      db.tables.find? (fun tb => tb.name = tableName) = some t →
      resolveColumnIndices t cols = .ok idxs →
      selectFilter condition t = .ok f →
      t.data.filter f ≠ [] →
      (sc, d) ∈ ob →
      t.columns.findIdx? (fun cc => cc.name = sc) = none →
      ∃ c2, select db tableName cols condition (some ob) =
        .error ("Sort column '" ++ c2 ++ "' not found")) := by
  refine ⟨?_, ?_, ?_, ?_⟩
  · intro db tableName cols condition orderBy h
    simp only [select, h]
  · intro db tableName t cols condition orderBy c hfind hW hmem hnone
    obtain ⟨c2, hc2⟩ := resolveColumnIndices_error t cols c hW hmem hnone
    exact ⟨c2, by simp only [select, hfind, hc2]⟩
  · intro db tableName t cols condition ob idxs f hfind hres hfil hempty
    simp only [select, hfind, hres, hfil, hempty]
    simp
  · intro db tableName t cols condition ob idxs f sc d hfind hres hfil hne hmem hnone
    obtain ⟨c2, hc2⟩ := resolveSortSpecs_error t ob sc d hmem hnone
    refine ⟨c2, ?_⟩
    simp only [select, hfind, hres, hfil]
    rw [if_neg hne, hc2]

/-- Witness for the amended C7: a missing table errors; a missing
projected column errors; a missing sort column is ignored when the
table holds no matching rows but errors when a row matches. -/
theorem C7_amended_select_errors_witness :
    select ⟨[]⟩ "t" ["*"] none none = .error "Table not found" ∧
    (∃ c2, select emptyADb "e" ["nope"] none none =
      .error ("Column '" ++ c2 ++ "' not found")) ∧
    select emptyADb "e" ["*"] none (some [("bogus", false)]) = .ok ([], false) ∧
    (∃ c2, select sortDb "s" ["*"] none (some [("bogus", true)]) =
      .error ("Sort column '" ++ c2 ++ "' not found")) := by
  have h := C7_amended_select_errors
  refine ⟨h.1 ⟨[]⟩ "t" ["*"] none none rfl, ?_, ?_, ?_⟩
  · exact h.2.1 emptyADb "e" ⟨"e", [⟨"a", .Int 32, false, false⟩], []⟩ ["nope"]
      none none "nope" rfl (by decide) (by simp) rfl
  · exact h.2.2.1 emptyADb "e" ⟨"e", [⟨"a", .Int 32, false, false⟩], []⟩ ["*"]
      none [("bogus", false)] [0] (fun _ => true) rfl rfl rfl rfl
  · exact h.2.2.2 sortDb "s"
      ⟨"s", [⟨"a", .Int 32, false, false⟩, ⟨"b", .Int 32, false, false⟩],
        [["2", "1"], ["1", "1"]]⟩
      ["*"] none [("bogus", true)] [0, 1] (fun _ => true) "bogus" true
      rfl rfl rfl (by decide) (by simp) rfl

/-! ## Lemmas about the insert row loop (for C8) -/

theorem insertRows_append (cols : Option (List String)) (l1 : List (List String)) :
    ∀ (t t1 : Table) (l2 : List (List String)) (n m : Nat),
    insertRows t cols l1 n = (.ok m, t1) →
    insertRows t cols (l1 ++ l2) n = insertRows t1 cols l2 m := by
  induction l1 with
  | nil =>
    intro t t1 l2 n m h
    simp only [insertRows] at h
    obtain ⟨h1, h2⟩ := Prod.mk.injEq .. ▸ h
    cases h1
    cases h2
    simp [insertRows]
  | cons r rest ih =>
    intro t t1 l2 n m h
    simp only [insertRows, List.cons_append] at h ⊢
    cases hs : insertRowStep t cols r with
    | error e => rw [hs] at h; cases h
    | ok full =>
      rw [hs] at h
      exact ih _ _ _ _ _ h

theorem insertRows_ok_shape (cols : Option (List String)) (l : List (List String)) :
    ∀ (t t1 : Table) (n m : Nat),
    insertRows t cols l n = (.ok m, t1) →
    t1.data.length = t.data.length + l.length ∧ m = n + l.length ∧
      t1.columns = t.columns ∧ t1.name = t.name := by
  induction l with
  | nil =>
    intro t t1 n m h
    simp only [insertRows] at h
    obtain ⟨h1, h2⟩ := Prod.mk.injEq .. ▸ h
    cases h1
    cases h2
    simp
  | cons r rest ih =>
    intro t t1 n m h
    simp only [insertRows] at h
    cases hs : insertRowStep t cols r with
    | error e => rw [hs] at h; cases h
    | ok full =>
      rw [hs] at h
      obtain ⟨h1, h2, h3, h4⟩ := ih _ _ _ _ h
      simp only [List.length_append, List.length_cons, List.length_nil] at h1 ⊢
      refine ⟨by omega, by omega, h3, h4⟩

/-- Claim C8: multi-row insert is non-atomic across rows and atomic per
row.  If the rows before position `k` all validate (producing table
state `t1`, with one appended row each) and row `r` at position `k`
fails validation, the whole call returns that row's error, the table is
left exactly at `t1` (rows before `k` stay committed), and neither `r`
nor any later row is appended. -/
theorem C8_insert_non_atomic (db : Database) (tableName : String)
    (cols : Option (List String)) (i : Nat) (t t1 : Table) (m : Nat)
    (vs1 vs2 : List (List String)) (r : List String) (e : String)
    (hfind : db.tables.findIdx? (fun tb => tb.name = tableName) = some i)
    (ht : db.tables.getD i ⟨"", [], []⟩ = t)
    (hok : insertRows t cols vs1 0 = (.ok m, t1))
    (hfail : insertRowStep t1 cols r = .error e) :
    insert db tableName cols (vs1 ++ r :: vs2) = (.error e, ⟨db.tables.set i t1⟩) ∧
    t1.data.length = t.data.length + vs1.length ∧ m = vs1.length := by
  have hshape := insertRows_ok_shape cols vs1 t t1 0 m hok
  refine ⟨?_, hshape.1, by omega⟩
  simp only [insert, hfind, ht]
  rw [insertRows_append cols vs1 t t1 (r :: vs2) 0 m hok]
  simp only [insertRows, hfail]

/-- Witness for C8: inserting three rows into `users` where the second
duplicates the first row's key commits the first row, reports the
duplicate-key error, and drops rows two and three. -/
theorem C8_insert_non_atomic_witness :
    insert usersDb "users" none [["2", "Bob"], ["2", "Carl"], ["3", "Dee"]] =
      (.error "Duplicate entry '2' for key 'PRIMARY'",
        ⟨[⟨"users", usersTable.columns, [["1", "Alice"], ["2", "Bob"]]⟩]⟩) ∧
    (Table.mk "users" usersTable.columns [["1", "Alice"], ["2", "Bob"]]).data.length =
      usersTable.data.length + [["2", "Bob"]].length ∧ (1 : Nat) = [["2", "Bob"]].length :=
  C8_insert_non_atomic usersDb "users" none 0 usersTable
    ⟨"users", usersTable.columns, [["1", "Alice"], ["2", "Bob"]]⟩ 1
    [["2", "Bob"]] [["3", "Dee"]] ["2", "Carl"]
    "Duplicate entry '2' for key 'PRIMARY'" rfl rfl rfl rfl

/-! ## Lemmas about the update primary-key check (for C6 and C10) -/

theorem checkUpdatePk_dup_error (t : Table) (flags : List Bool) (names : List String)
    (colName v : String) (idx : Nat) :
    ∀ (pairs : List (String × String)),
    (colName, v) ∈ pairs →
    colMapGet names colName = some idx →
    flags.getD idx false = true →
    t.data.any (fun row => cellAt row idx = v) = true →
    ∃ w, checkUpdatePk t flags names pairs =
      .error ("Duplicate entry '" ++ w ++ "' for key 'PRIMARY'") := by
  intro pairs
  induction pairs with
  | nil => intro h; cases h
  | cons p rest ih =>
    intro hmem hcm hpk hdup
    obtain ⟨pc, pv⟩ := p
    rcases List.mem_cons.mp hmem with heq | hmem2
    · obtain ⟨hc, hv⟩ := Prod.mk.injEq .. ▸ heq
      subst hc
      subst hv
      refine ⟨v, ?_⟩
      simp only [checkUpdatePk, hcm, hpk, hdup]
      simp
    · simp only [checkUpdatePk]
      cases hcm2 : colMapGet names pc with
      | none => exact ih hmem2 hcm hpk hdup
      | some j =>
        by_cases hj : flags.getD j false = true
        · simp only [hj, if_true]
          by_cases hd : t.data.any (fun row => cellAt row j = pv) = true
          · exact ⟨pv, by simp [hd]⟩
          · simp only [Bool.not_eq_true] at hd
            simp only [hd]
            simpa using ih hmem2 hcm hpk hdup
        · simp only [Bool.not_eq_true] at hj
          simp only [hj]
          simpa using ih hmem2 hcm hpk hdup

/-- Claim C6: an `update` whose `SET` list assigns the primary column a
value equal (after quote/NULL normalization) to the primary cell of a
stored row — in particular the updated row's own current value — is
rejected with a duplicate-key error before any row is mutated: the
database is returned unchanged, whatever the condition. -/
theorem C6_update_rejects_self_rename (db : Database) (tableName : String)
    (set : List (String × String)) (condition : Option String) (i pkIdx : Nat)
    (t : Table) (row : List String) (colName rawV : String)
    (hfind : db.tables.findIdx? (fun tb => tb.name = tableName) = some i)
    (ht : db.tables.getD i ⟨"", [], []⟩ = t)
    (hmem : (colName, rawV) ∈ set)
    (hcm : colMapGet (t.columns.map (fun c => c.name)) colName = some pkIdx)
    (hpk : (t.columns.map (fun c => c.is_primary)).getD pkIdx false = true)
    (hrow : row ∈ t.data)
    (hv : cellAt row pkIdx = processSetValue rawV) :
    (∃ w, (update db tableName set condition).1 =
      .error ("Duplicate entry '" ++ w ++ "' for key 'PRIMARY'")) ∧
    (update db tableName set condition).2 = db := by
  have hmem2 : (colName, processSetValue rawV) ∈
      set.map (fun p => (p.1, processSetValue p.2)) :=
    List.mem_map.mpr ⟨(colName, rawV), hmem, rfl⟩
  have hdup : t.data.any (fun r => cellAt r pkIdx = processSetValue rawV) = true :=
    List.any_eq_true.mpr ⟨row, hrow, by simp [hv]⟩
  obtain ⟨w, hw⟩ := checkUpdatePk_dup_error t (t.columns.map (fun c => c.is_primary))
    (t.columns.map (fun c => c.name)) colName (processSetValue rawV) pkIdx
    (set.map (fun p => (p.1, processSetValue p.2))) hmem2 hcm hpk hdup
  constructor
  · exact ⟨w, by simp only [update, hfind, ht, hw]⟩
  · simp only [update, hfind, ht, hw]

/-- Witness for C6: renaming key `1` of `t(id INT PRIMARY KEY)` to its
own current value is rejected and the table is unchanged. -/
theorem C6_update_rejects_self_rename_witness :
    (∃ w, (update pkDb "t" [("id", "1")] none).1 =
      .error ("Duplicate entry '" ++ w ++ "' for key 'PRIMARY'")) ∧
    (update pkDb "t" [("id", "1")] none).2 = pkDb :=
  C6_update_rejects_self_rename pkDb "t" [("id", "1")] none 0 0 pkTable ["1"]
    "id" "1" rfl rfl (by decide) rfl rfl (by decide) rfl

/-- Claim C10: when the `SET` list assigns the primary column a value
that, after quote/NULL normalization, equals the primary cell of some
stored row, `update` returns the duplicate-key error and leaves the
database completely unchanged for EVERY condition — including
conditions that match no rows — because the uniqueness check scans all
rows before the condition is ever evaluated. -/
theorem C10_update_dup_checked_before_condition (db : Database) (tableName : String)
    (set : List (String × String)) (i pkIdx : Nat)
    (t : Table) (colName rawV : String)
    (hfind : db.tables.findIdx? (fun tb => tb.name = tableName) = some i)
    (ht : db.tables.getD i ⟨"", [], []⟩ = t)
    (hmem : (colName, rawV) ∈ set)
    (hcm : colMapGet (t.columns.map (fun c => c.name)) colName = some pkIdx)
    (hpk : (t.columns.map (fun c => c.is_primary)).getD pkIdx false = true)
    (hdup : t.data.any (fun r => cellAt r pkIdx = processSetValue rawV) = true) :
    ∀ condition : Option String,
    ∃ w, update db tableName set condition =
      (.error ("Duplicate entry '" ++ w ++ "' for key 'PRIMARY'"), db) := by
  intro condition
  have hmem2 : (colName, processSetValue rawV) ∈
      set.map (fun p => (p.1, processSetValue p.2)) :=
    List.mem_map.mpr ⟨(colName, rawV), hmem, rfl⟩
  obtain ⟨w, hw⟩ := checkUpdatePk_dup_error t (t.columns.map (fun c => c.is_primary))
    (t.columns.map (fun c => c.name)) colName (processSetValue rawV) pkIdx
    (set.map (fun p => (p.1, processSetValue p.2))) hmem2 hcm hpk hdup
  exact ⟨w, by simp only [update, hfind, ht, hw]⟩

/-- Witness for C10: assigning `id` the quoted literal `'2'` (which
normalizes to the stored key `2`) fails with the duplicate-key error
and changes nothing although the condition `id = 99` matches no row. -/
theorem C10_update_dup_checked_before_condition_witness :
    ∃ w, update pkDb "t" [("id", "'2'")] (some "id = 99") =
      (.error ("Duplicate entry '" ++ w ++ "' for key 'PRIMARY'"), pkDb) :=
  C10_update_dup_checked_before_condition pkDb "t" [("id", "'2'")] 0 0 pkTable
    "id" "'2'" rfl rfl (by decide) rfl rfl (by decide) (some "id = 99")

/-- Claim C4, amended: a descending key ends the comparison (later keys
are ignored when it ties), but for the claim's two-key shape
`[(a, ascending), (b, descending)]` — where the descending key comes
last — the code comparator coincides with the specification's
per-key-reversal comparator, so the stable sort orders rows by `a`
ascending and, within equal `a`, by `b` descending. -/
theorem C4_amended_asc_then_desc_sort :
    ∀ (i j : Nat) (dti dtj : DataType) (a b : List String)
      (rows : List (List String)),
    rowCompare [(i, dti, false), (j, dtj, true)] a b =
      specOrderCompare [(i, dti, false), (j, dtj, true)] a b ∧
    rows.mergeSort (fun x y => rowCompare [(i, dti, false), (j, dtj, true)] x y ≠ .gt) =
      rows.mergeSort (fun x y => specOrderCompare [(i, dti, false), (j, dtj, true)] x y ≠ .gt) := by
  have key : ∀ (i j : Nat) (dti dtj : DataType) (a b : List String),
      rowCompare [(i, dti, false), (j, dtj, true)] a b =
        specOrderCompare [(i, dti, false), (j, dtj, true)] a b := by
    intro i j dti dtj a b
    simp only [rowCompare, specOrderCompare]
    generalize keyCompare dti i a b = o1
    generalize keyCompare dtj j a b = o2
    cases o1 <;> cases o2 <;> rfl
  intro i j dti dtj a b rows
  refine ⟨key i j dti dtj a b, ?_⟩
  have hle : (fun x y : List String =>
      (decide (rowCompare [(i, dti, false), (j, dtj, true)] x y ≠ .gt) : Bool)) =
      (fun x y => (decide (specOrderCompare [(i, dti, false), (j, dtj, true)] x y ≠ .gt) : Bool)) := by
    funext x y
    rw [key i j dti dtj x y]
  exact congrArg (fun le => List.mergeSort rows le) hle

/-- Claim C5, amended: `IS NULL` compiles (for any simple column name
bound in the table) to the test "the cell, stripped of surrounding
double quotes, is the empty string" — not the Enforcer's trim-and-
case-insensitive-`null` test — and `IS NOT NULL` to its exact
complement. -/
theorem C5_amended_is_null_semantics (t : Table) (col : String) (idx : Nat)
    (hcol : simpleTok col)
    (hidx : t.columns.findIdx? (fun c => c.name = col) = some idx)
    (hA1 : find_outer_operator (joinTokens [col, "IS", "NULL"]) "AND" = none)
    (hO1 : find_outer_operator (joinTokens [col, "IS", "NULL"]) "OR" = none)
    (hA2 : find_outer_operator (joinTokens [col, "IS", "NOT", "NULL"]) "AND" = none)
    (hO2 : find_outer_operator (joinTokens [col, "IS", "NOT", "NULL"]) "OR" = none) :
    parse_condition (joinTokens [col, "IS", "NULL"]) t = .ok (.isNullP idx) ∧
    parse_condition (joinTokens [col, "IS", "NOT", "NULL"]) t = .ok (.isNotNullP idx) ∧
    (∀ row, evalPred (.isNullP idx) row = (trimDQ (cellAt row idx) = "" : Bool)) ∧
    (∀ row, evalPred (.isNotNullP idx) row = !(evalPred (.isNullP idx) row)) := by
  have hall1 : ∀ s ∈ [col, "IS", "NULL"], simpleTok s := by
    intro s hs
    simp only [List.mem_cons, List.not_mem_nil, or_false] at hs
    rcases hs with rfl | rfl | rfl
    · exact hcol
    · decide
    · decide
  have hall2 : ∀ s ∈ [col, "IS", "NOT", "NULL"], simpleTok s := by
    intro s hs
    simp only [List.mem_cons, List.not_mem_nil, or_false] at hs
    rcases hs with rfl | rfl | rfl | rfl
    · exact hcol
    · decide
    · decide
    · decide
  refine ⟨?_, ?_, ?_, ?_⟩
  · rw [parse_joinTokens_single t [col, "IS", "NULL"] (by simp) hall1 hA1 hO1]
    simp only [parse_single_condition]
    rw [tokenize_joinTokens [col, "IS", "NULL"] (by simp) hall1]
    simp only [List.length_cons, List.getD_cons_zero, List.getD_cons_succ]
    rw [hidx]
    rfl
  · rw [parse_joinTokens_single t [col, "IS", "NOT", "NULL"] (by simp) hall2 hA2 hO2]
    simp only [parse_single_condition]
    rw [tokenize_joinTokens [col, "IS", "NOT", "NULL"] (by simp) hall2]
    simp only [List.length_cons, List.getD_cons_zero, List.getD_cons_succ]
    rw [hidx]
    rfl
  · intro row
    rfl
  · intro row
    simp [evalPred]

/-- Witness for the amended C5 at column `x` of `xTable`: both forms
compile, the empty cell is matched by `IS NULL`, and a whitespace cell
is matched by `IS NOT NULL`. -/
theorem C5_amended_is_null_semantics_witness :
    parse_condition (joinTokens ["x", "IS", "NULL"]) xTable = .ok (.isNullP 0) ∧
    parse_condition (joinTokens ["x", "IS", "NOT", "NULL"]) xTable = .ok (.isNotNullP 0) ∧
    evalPred (.isNullP 0) [""] = (trimDQ (cellAt [""] 0) = "" : Bool) ∧
    evalPred (.isNotNullP 0) [" "] = !(evalPred (.isNullP 0) [" "]) := by
  have h := C5_amended_is_null_semantics xTable "x" 0 (by decide) rfl rfl rfl rfl rfl
  exact ⟨h.1, h.2.1, h.2.2.1 [""], h.2.2.2 [" "]⟩

/-- Claim C9, amended: for simple tokens, `col = tok` compiles to a
case-sensitive string comparison of the cell stripped of surrounding
DOUBLE quotes only against the literal stripped of double or single
quotes; `col > tok` and `col < tok` compare the 32-bit parse of the
double-quote-stripped cell (unparsable cells count as 0) against the
parse of the quote-stripped literal (also 0 when unparsable). -/
theorem C9_amended_single_comparisons (t : Table) (col tok : String) (idx : Nat)
    (hcol : simpleTok col) (htok : litTok tok)
    (hidx : t.columns.findIdx? (fun c => c.name = col) = some idx)
    (hAeq : find_outer_operator (joinTokens [col, "=", tok]) "AND" = none)
    (hOeq : find_outer_operator (joinTokens [col, "=", tok]) "OR" = none)
    (hAgt : find_outer_operator (joinTokens [col, ">", tok]) "AND" = none)
    (hOgt : find_outer_operator (joinTokens [col, ">", tok]) "OR" = none)
    (hAlt : find_outer_operator (joinTokens [col, "<", tok]) "AND" = none)
    (hOlt : find_outer_operator (joinTokens [col, "<", tok]) "OR" = none) :
    parse_condition (joinTokens [col, "=", tok]) t = .ok (.eqP idx (trimQuotes tok)) ∧
    parse_condition (joinTokens [col, ">", tok]) t = .ok (.gtP idx (trimQuotes tok)) ∧
    parse_condition (joinTokens [col, "<", tok]) t = .ok (.ltP idx (trimQuotes tok)) ∧
    (∀ row, evalPred (.eqP idx (trimQuotes tok)) row =
      (trimDQ (cellAt row idx) = trimQuotes tok : Bool)) ∧
    (∀ row, evalPred (.gtP idx (trimQuotes tok)) row =
      (i32OrZero (trimDQ (cellAt row idx)) > i32OrZero (trimQuotes tok) : Bool)) ∧
    (∀ row, evalPred (.ltP idx (trimQuotes tok)) row =
      (i32OrZero (trimDQ (cellAt row idx)) < i32OrZero (trimQuotes tok) : Bool)) := by
  refine ⟨?_, ?_, ?_, fun row => rfl, fun row => rfl, fun row => rfl⟩
  · rw [parse_threeTok_single t col "=" tok hcol (by decide) htok hAeq hOeq]
    simp only [parse_single_condition]
    rw [tokenize_three_tokens col "=" tok hcol (by decide) htok]
    simp only [List.length_cons, List.getD_cons_zero, List.getD_cons_succ]
    rw [hidx]
    rfl
  · rw [parse_threeTok_single t col ">" tok hcol (by decide) htok hAgt hOgt]
    simp only [parse_single_condition]
    rw [tokenize_three_tokens col ">" tok hcol (by decide) htok]
    simp only [List.length_cons, List.getD_cons_zero, List.getD_cons_succ]
    rw [hidx]
    rfl
  · rw [parse_threeTok_single t col "<" tok hcol (by decide) htok hAlt hOlt]
    simp only [parse_single_condition]
    rw [tokenize_three_tokens col "<" tok hcol (by decide) htok]
    simp only [List.length_cons, List.getD_cons_zero, List.getD_cons_succ]
    rw [hidx]
    rfl

/-- Witness for the amended C9 over `xTable`, with QUOTED literals so
the quote-stripping clause is exercised: the single-quoted literal in
`x = '5'` compiles against the stripped value `5`, the double-quoted
literal in `x > "7"` against `7`. -/
theorem C9_amended_single_comparisons_witness :
    parse_condition (joinTokens ["x", "=", "'5'"]) xTable =
      .ok (.eqP 0 (trimQuotes "'5'")) ∧
    trimQuotes "'5'" = "5" ∧
    parse_condition (joinTokens ["x", ">", "\"7\""]) xTable =
      .ok (.gtP 0 (trimQuotes "\"7\"")) ∧
    trimQuotes "\"7\"" = "7" ∧
    evalPred (.eqP 0 (trimQuotes "'5'")) ["5"] =
      (trimDQ (cellAt ["5"] 0) = trimQuotes "'5'" : Bool) ∧
    evalPred (.ltP 0 (trimQuotes "\"7\"")) ["3"] =
      (i32OrZero (trimDQ (cellAt ["3"] 0)) < i32OrZero (trimQuotes "\"7\"") : Bool) := by
  have hsq : litTok "'5'" :=
    Or.inr ⟨'\'', ['5'], Or.inr rfl, rfl, by decide⟩
  have hdq : litTok "\"7\"" :=
    Or.inr ⟨'"', ['7'], Or.inl rfl, rfl, by decide⟩
  have h1 := C9_amended_single_comparisons xTable "x" "'5'" 0 (by decide) hsq
    rfl rfl rfl rfl rfl rfl rfl
  have h2 := C9_amended_single_comparisons xTable "x" "\"7\"" 0 (by decide) hdq
    rfl rfl rfl rfl rfl rfl rfl
  exact ⟨h1.1, by decide, h2.2.1, by decide, h1.2.2.2.1 ["5"], h2.2.2.2.2.2 ["3"]⟩

/-- Claim C9, counterexample: in the compiled `=` the row cell is
stripped of double quotes only (a single-quoted cell `'5'` does not
match the literal `5` although its quote-stripped form is `"5"`), and
in `>` the cell is parsed after double-quote stripping (the cell
`"5"` — with quotes — compares as 5, not as an unparsable 0). -/
theorem C9_counterexample_quote_stripping :
    parse_condition "x = 5" xTable = .ok (.eqP 0 "5") ∧
    trimQuotes "'5'" = "5" ∧
    evalPred (.eqP 0 "5") ["'5'"] = false ∧
    parse_condition "x > 3" xTable = .ok (.gtP 0 "3") ∧
    parseI32 "\"5\"" = none ∧
    evalPred (.gtP 0 "3") ["\"5\""] = true := by
  refine ⟨rfl, by decide, by decide, rfl, by decide, by decide⟩

end RustiqueDB
